import Mathlib

/-
Verification of the PCB component placement program
(placement_utils.py and solver.py) against its specification.

Modelling conventions:
* Coordinates and sizes are rationals (ℚ).  The Python code computes with
  ints and floats; every numeric value actually produced by this program is
  rational, and all comparisons are exact.
* `math.sqrt(d) <= r` is modelled as `d <= r^2` (both sides are nonnegative
  and squaring is monotone, so the two are equivalent); the validator only
  ever compares a distance against a constant radius.
* A Python dict is modelled as an association list with lookup returning the
  first binding (Python dicts have unique keys, so this is exact), preserving
  insertion order as the Python iteration order.
* Python's `int(...)` cast (truncation toward zero) is `ratTrunc`.
-/

set_option maxRecDepth 8000

namespace PCB

/-- Assignment constants from placement_utils.py. -/
def BOARD_DIMS : ℚ × ℚ := (50, 50)

def PROXIMITY_RADIUS : ℚ := 10

def CENTER_OF_MASS_RADIUS : ℚ := 2

def KEEPOUT_ZONE_DIMS : ℚ × ℚ := (10, 20)

def VALIDATION_TIME_LIMIT : ℚ := 2

/-- A component rectangle, the value type of a placement dict:
`{'x': ..., 'y': ..., 'w': ..., 'h': ...}`. -/
structure Rect where
  x : ℚ
  y : ℚ
  w : ℚ
  h : ℚ
deriving DecidableEq

/-- `_get_center(comp)` from placement_utils.py. -/
def get_center (c : Rect) : ℚ × ℚ := (c.x + c.w / 2, c.y + c.h / 2)

/-- Square of `_distance(p1, p2)`; the code only compares distances with
constant radii, which is equivalent to comparing squares. -/
def distSq (p1 p2 : ℚ × ℚ) : ℚ := (p2.1 - p1.1) ^ 2 + (p2.2 - p1.2) ^ 2

/-- Python's `int(...)` applied to a float/rational: truncation toward 0. -/
def ratTrunc (q : ℚ) : ℤ := if 0 ≤ q then ⌊q⌋ else ⌈q⌉

/-- A placement dict: insertion-ordered association list with unique keys. -/
abbrev Placement := List (String × Rect)

/-- Dict lookup, first matching key (Python dict keys are unique). -/
def dictGet (k : String) : Placement → Option Rect
  | [] => none
  | (k', v) :: rest => if k' = k then some v else dictGet k rest

/-- The `required_keys` list of validate_placement. -/
def requiredKeys : List String :=
  ["USB_CONNECTOR", "MICROCONTROLLER", "CRYSTAL",
   "MIKROBUS_CONNECTOR_1", "MIKROBUS_CONNECTOR_2"]

/-- `all(key in placement for key in required_keys)`. -/
def requiredPresent (p : Placement) : Bool :=
  requiredKeys.all fun k => (dictGet k p).isSome

/-- Rule 1, Boundary Constraint: every component inside the board. -/
def boundaryCheck (p : Placement) : Bool :=
  p.all fun kv =>
    decide (kv.2.x ≥ 0) && decide (kv.2.y ≥ 0) &&
    decide (kv.2.x + kv.2.w ≤ BOARD_DIMS.1) &&
    decide (kv.2.y + kv.2.h ≤ BOARD_DIMS.2)

/-- All pairs (i, j) with i < j of a list, in the order generated by
`for i in range(len(items)) for j in range(i+1, len(items))`. -/
def allPairs {α : Type} : List α → List (α × α)
  | [] => []
  | a :: rest => (rest.map fun b => (a, b)) ++ allPairs rest

/-- The pairwise test inside the `any(...)` of the No Overlapping rule:
true when rectangles a and b overlap (touching edges do not count). -/
def overlapPair (a b : Rect) : Bool :=
  !(decide (a.x + a.w ≤ b.x) || decide (a.x ≥ b.x + b.w) ||
    decide (a.y + a.h ≤ b.y) || decide (a.y ≥ b.y + b.h))

/-- `overlap_found` of validate_placement. -/
def overlapFound (p : Placement) : Bool :=
  (allPairs (p.map Prod.snd)).any fun ab => overlapPair ab.1 ab.2

/-- Rule 2, No Overlapping. -/
def noOverlapCheck (p : Placement) : Bool := !(overlapFound p)

/-- The three component names checked by the Edge Placement rule. -/
def edgeNames : List String :=
  ["USB_CONNECTOR", "MIKROBUS_CONNECTOR_1", "MIKROBUS_CONNECTOR_2"]

/-- The per-component condition of the Edge Placement rule. -/
def onEdge (c : Rect) : Bool :=
  decide (c.x = 0) || decide (c.y = 0) ||
  decide (c.x + c.w = BOARD_DIMS.1) || decide (c.y + c.h = BOARD_DIMS.2)

/-- Rule 3, Edge Placement (a missing key is unreachable: the rule is only
evaluated after the required-keys guard). -/
def edgeCheck (p : Placement) : Bool :=
  edgeNames.all fun n =>
    match dictGet n p with
    | some c => onEdge c
    | none => false

/-- The `is_parallel` computation on the two MIKROBUS rectangles. -/
def parallelRule (mb1 mb2 : Rect) : Bool :=
  decide (mb1.w = mb2.w ∧
    ((mb1.x = 0 ∧ mb2.x + mb2.w = 50) ∨
     (mb1.x + mb1.w = 50 ∧ mb2.x = 0) ∨
     (mb1.y = 0 ∧ mb2.y + mb2.h = 50) ∨
     (mb1.y + mb1.h = 50 ∧ mb2.y = 0)))

/-- Rule 4, Parallel Placement. -/
def parallelCheck (p : Placement) : Bool :=
  match dictGet "MIKROBUS_CONNECTOR_1" p, dictGet "MIKROBUS_CONNECTOR_2" p with
  | some mb1, some mb2 => parallelRule mb1 mb2
  | _, _ => false

/-- Rule 5, Proximity Constraint: dist(crystal, micro) ≤ 10, by squares. -/
def proximityCheck (p : Placement) : Bool :=
  match dictGet "CRYSTAL" p, dictGet "MICROCONTROLLER" p with
  | some cr, some mc =>
      decide (distSq (get_center cr) (get_center mc) ≤ PROXIMITY_RADIUS ^ 2)
  | _, _ => false

/-- Rule 6, Global Balance: the average of all centers (over every entry of
the dict, `len(placement)` of them) within 2 of (25, 25), by squares. -/
def balanceCheck (p : Placement) : Bool :=
  let n : ℚ := p.length
  let comX := (p.map fun kv => (get_center kv.2).1).sum / n
  let comY := (p.map fun kv => (get_center kv.2).2).sum / n
  decide (distSq (comX, comY) (25, 25) ≤ CENTER_OF_MASS_RADIUS ^ 2)

/-- The keep-out zone derived from the USB connector's rectangle:
the if/elif/elif/else chain of validate_placement. -/
def keepoutZone (usb : Rect) : Rect :=
  let zw := KEEPOUT_ZONE_DIMS.1
  let zh := KEEPOUT_ZONE_DIMS.2
  let cx := (get_center usb).1
  let cy := (get_center usb).2
  if usb.y = 0 then ⟨cx - zw / 2, 0, zw, zh⟩
  else if usb.y + usb.h = 50 then ⟨cx - zw / 2, 50 - zh, zw, zh⟩
  else if usb.x = 0 then ⟨0, cy - zw / 2, zh, zw⟩
  else ⟨50 - zh, cy - zw / 2, zh, zw⟩

/-- The `ccw` helper of the keep-out rule. -/
def ccw (A B C : ℚ × ℚ) : Bool :=
  decide ((C.2 - A.2) * (B.1 - A.1) > (B.2 - A.2) * (C.1 - A.1))

/-- The `intersect` helper: strict segment intersection test. -/
def segsIntersect (A B C D : ℚ × ℚ) : Bool :=
  (ccw A C D != ccw B C D) && (ccw A B C != ccw A B D)

/-- The `intersects` disjunction: segment p1-p2 against the four zone edges
(tl-tr, tr-br, br-bl, bl-tl). -/
def zoneCrossed (zone : Rect) (p1 p2 : ℚ × ℚ) : Bool :=
  let tl : ℚ × ℚ := (zone.x, zone.y)
  let tr : ℚ × ℚ := (zone.x + zone.w, zone.y)
  let bl : ℚ × ℚ := (zone.x, zone.y + zone.h)
  let br : ℚ × ℚ := (zone.x + zone.w, zone.y + zone.h)
  segsIntersect p1 p2 tl tr || segsIntersect p1 p2 tr br ||
  segsIntersect p1 p2 br bl || segsIntersect p1 p2 bl tl

/-- Rule 7, Keep-Out Zone. -/
def keepoutCheck (p : Placement) : Bool :=
  match dictGet "USB_CONNECTOR" p, dictGet "CRYSTAL" p,
        dictGet "MICROCONTROLLER" p with
  | some usb, some cr, some mc =>
      !(zoneCrossed (keepoutZone usb) (get_center cr) (get_center mc))
  | _, _, _ => false

/-- validate_placement from placement_utils.py: the required-keys guard,
then the `results` dict of the seven rules (diagnostic strings dropped),
then `all_valid = all(res[0] for res in results.values())`. -/
def validate_placement (p : Placement) : Bool :=
  if requiredPresent p then
    let results : List (String × Bool) :=
      [("Boundary Constraint", boundaryCheck p),
       ("No Overlapping", noOverlapCheck p),
       ("Edge Placement", edgeCheck p),
       ("Parallel Placement", parallelCheck p),
       ("Proximity Constraint", proximityCheck p),
       ("Global Balance", balanceCheck p),
       ("Keep-Out Zone", keepoutCheck p)]
    results.all fun r => r.2
  else false

end PCB

namespace PCB

/-
Model of solver.py.

Sources of nondeterminism are passed in explicitly and quantified over:
* every `random.randint` result is an arbitrary integer (a superset of the
  actual range, which only strengthens universally quantified theorems);
* the `random.uniform` jitter (dx, dy) and the polar crystal offset
  (dist*cos(angle), dist*sin(angle)) are arbitrary rationals (ox, oy);
* each `time.time()` reading of the while-loop condition is one element of
  a finite list of clock values; an exhausted list behaves as an expired
  clock (a real monotone clock yields only finitely many readings below
  any deadline, so every real run is covered);
* the result of `random.shuffle(edge_configs)` is an arbitrary list of
  configurations.
-/

/-- A component position in the solver's internal `(x, y, rot)` format. -/
structure IPos where
  x : ℤ
  y : ℤ
  rot : ℕ
deriving DecidableEq

/-- The solver's `positions` dict at the moment of validation: it always
holds exactly the five components, inserted in this order
(MB1, MB2, USB, MICROCONTROLLER, CRYSTAL). -/
structure IPlacement where
  mb1 : IPos
  mb2 : IPos
  usb : IPos
  micro : IPos
  crystal : IPos
deriving DecidableEq

/-- COMPONENTS_SPECS sizes; only the five component names are ever looked
up, and only the MIKROBUS connectors differ from (5, 5). -/
def specSize (name : String) : ℚ × ℚ :=
  if name = "MIKROBUS_CONNECTOR_1" ∨ name = "MIKROBUS_CONNECTOR_2" then (5, 15)
  else (5, 5)

/-- `get_center_from_pos(name, pos)` from solver.py. -/
def get_center_from_pos (name : String) (p : IPos) : ℚ × ℚ :=
  let wh := specSize name
  let wh' := if p.rot = 90 then (wh.2, wh.1) else wh
  ((p.x : ℚ) + wh'.1 / 2, (p.y : ℚ) + wh'.2 / 2)

/-- `_convert_to_util_format` from solver.py, iterating the `positions`
dict in insertion order. -/
def convert_to_util_format (ip : IPlacement) : Placement :=
  let conv := fun (name : String) (p : IPos) =>
    let wh := specSize name
    let wh' := if p.rot = 90 then (wh.2, wh.1) else wh
    (name, Rect.mk (p.x : ℚ) (p.y : ℚ) wh'.1 wh'.2)
  [conv "MIKROBUS_CONNECTOR_1" ip.mb1,
   conv "MIKROBUS_CONNECTOR_2" ip.mb2,
   conv "USB_CONNECTOR" ip.usb,
   conv "MICROCONTROLLER" ip.micro,
   conv "CRYSTAL" ip.crystal]

/-- MIKROBUS orientation of an edge configuration ('v' or 'h'). -/
inductive MBOrient
  | v
  | h
deriving DecidableEq

/-- USB edge of an edge configuration. -/
inductive UsbEdge
  | top
  | bottom
  | left
  | right
deriving DecidableEq

/-- One `(mb_orientation, usb_edge)` pair. -/
abbrev Config := MBOrient × UsbEdge

/-- The `edge_configs` list before shuffling. -/
def edge_configs : List Config :=
  [(MBOrient.v, UsbEdge.top), (MBOrient.v, UsbEdge.bottom),
   (MBOrient.h, UsbEdge.left), (MBOrient.h, UsbEdge.right)]

/-- Random draws of one iteration of the inner `for i in range(100)` loop:
dx, dy are the uniform(-5, 5) jitters; (ox, oy) is the crystal offset
`(dist*cos(angle), dist*sin(angle))`. -/
structure InnerDraw where
  dx : ℚ
  dy : ℚ
  ox : ℚ
  oy : ℚ

/-- Random draws of one iteration of the while loop: the two connector
randints, the USB randint, and a stream of inner-loop draws. -/
structure OuterDraw where
  rA : ℤ
  rB : ℤ
  rU : ℤ
  inner : ℕ → InnerDraw

/-- One clock reading paired with the draws of the iteration it guards. -/
abbrev Tick := ℚ × OuterDraw

/-- Step 1 of an attempt: place the MIKROBUS connectors
(solver.py lines 55-66).  For 'v': rot = 90, (rw, rh) = (15, 5), MB1 at
x = 0 and MB2 at x = 50 - rw; for 'h': rot = 0, (rw, rh) = (5, 15),
MB1 at y = 0 and MB2 at y = 50 - rh. -/
def placeMB (o : MBOrient) (rA rB : ℤ) : IPos × IPos :=
  match o with
  | MBOrient.v => (⟨0, rA, 90⟩, ⟨50 - 15, rB, 90⟩)
  | MBOrient.h => (⟨rA, 0, 0⟩, ⟨rB, 50 - 15, 0⟩)

/-- Step 2 of an attempt: place the USB connector (solver.py lines 68-73),
with (usb_w, usb_h) = (5, 5). -/
def placeUSB (e : UsbEdge) (rU : ℤ) : IPos :=
  match e with
  | UsbEdge.top => ⟨rU, 0, 0⟩
  | UsbEdge.bottom => ⟨rU, 50 - 5, 0⟩
  | UsbEdge.left => ⟨0, rU, 0⟩
  | UsbEdge.right => ⟨50 - 5, rU, 0⟩

/-- Step 3 of an attempt (solver.py lines 75-89): the target center for
each of the two internal components, derived from the three edge
components' center sums so that all five centers can sum to (125, 125). -/
def targetCenter (mb1 mb2 usb : IPos) : ℚ × ℚ :=
  let ecx := (get_center_from_pos "MIKROBUS_CONNECTOR_1" mb1).1 +
             (get_center_from_pos "MIKROBUS_CONNECTOR_2" mb2).1 +
             (get_center_from_pos "USB_CONNECTOR" usb).1
  let ecy := (get_center_from_pos "MIKROBUS_CONNECTOR_1" mb1).2 +
             (get_center_from_pos "MIKROBUS_CONNECTOR_2" mb2).2 +
             (get_center_from_pos "USB_CONNECTOR" usb).2
  ((125 - ecx) / 2, (125 - ecy) / 2)

/-- One body of the inner loop (solver.py lines 96-109): jittered
MICROCONTROLLER near the target, CRYSTAL at a random offset of norm at
most PROXIMITY_RADIUS around the microcontroller's center, coordinates
truncated to ints; (mc_w, mc_h) = (cr_w, cr_h) = (5, 5). -/
def mkCandidate (mb1 mb2 usb : IPos) (t : ℚ × ℚ) (d : InnerDraw) : IPlacement :=
  let mcx := ratTrunc (t.1 - 5 / 2 + d.dx)
  let mcy := ratTrunc (t.2 - 5 / 2 + d.dy)
  let mcPos : IPos := ⟨mcx, mcy, 0⟩
  let mcC := get_center_from_pos "MICROCONTROLLER" mcPos
  let crx := ratTrunc (mcC.1 + d.ox - 5 / 2)
  let cry := ratTrunc (mcC.2 + d.oy - 5 / 2)
  ⟨mb1, mb2, usb, mcPos, ⟨crx, cry, 0⟩⟩

/-- The inner `for i in range(100)` loop (solver.py lines 95-116), started
with index i and the given remaining iteration count.  Returns the first
candidate that passes `validate_placement` (if any) and, as instrumentation
for the resource claims, the number of validation calls performed. -/
def innerLoop (mb1 mb2 usb : IPos) (t : ℚ × ℚ) (ds : ℕ → InnerDraw) :
    ℕ → ℕ → Option IPlacement × ℕ
  | _, 0 => (none, 0)
  | i, fuel + 1 =>
    let cand := mkCandidate mb1 mb2 usb t (ds i)
    if validate_placement (convert_to_util_format cand) then (some cand, 1)
    else
      match innerLoop mb1 mb2 usb t ds (i + 1) fuel with
      | (r, n) => (r, n + 1)

/-- The `while time.time() - start_time < (VALIDATION_TIME_LIMIT - 0.2)`
loop for one configuration (solver.py lines 52-116).  Each iteration
consumes one clock reading; the loop exits when the reading is at or past
the shared deadline or the reading list is exhausted.  Returns the result,
the unconsumed ticks (handed to the next configuration: the deadline is
shared, never reset), the number of clock checks that passed, and the total
number of validation calls. -/
def whileLoop (t0 : ℚ) (cfg : Config) :
    List Tick → Option IPlacement × List Tick × ℕ × ℕ
  | [] => (none, [], 0, 0)
  | (t, d) :: rest =>
    if t - t0 < VALIDATION_TIME_LIMIT - 1 / 5 then
      let mbs := placeMB cfg.1 d.rA d.rB
      let usb := placeUSB cfg.2 d.rU
      let tc := targetCenter mbs.1 mbs.2 usb
      match innerLoop mbs.1 mbs.2 usb tc d.inner 0 100 with
      | (some sol, v) => (some sol, rest, 1, v)
      | (none, v) =>
        match whileLoop t0 cfg rest with
        | (r, rem, k, vs) => (r, rem, k + 1, vs + v)
    else (none, rest, 0, 0)

/-- find_placement from solver.py.  `t0` is `start_time`, `cfgs` is the
shuffled `edge_configs` list, `ticks` the clock readings with their draws.
Returns the result, a trace recording for every configuration entered the
tick list at its entry and its passing-check count, and the total number
of validation calls. -/
def find_placement (t0 : ℚ) :
    List Config → List Tick →
    Option IPlacement × List (Config × List Tick × ℕ) × ℕ
  | [], _ => (none, [], 0)
  | c :: cs, ticks =>
    match whileLoop t0 c ticks with
    | (some sol, _, k, v) => (some sol, [(c, ticks, k)], v)
    | (none, rem, k, v) =>
      match find_placement t0 cs rem with
      | (r, tr, vs) => (r, (c, ticks, k) :: tr, v + vs)

end PCB

namespace PCB

/- Definitions used to state the claims. -/

/-- Spec-side predicate: the placement contains exactly the five required
component kinds (all of them present, and every key required). -/
def hasExactlyRequired (p : Placement) : Prop :=
  (∀ k ∈ requiredKeys, (dictGet k p).isSome = true) ∧
  ∀ kv ∈ p, kv.1 ∈ requiredKeys

/-- The placement with the rectangles bound to the two MIKROBUS connector
keys exchanged (all other bindings unchanged). -/
def swapMB (p : Placement) : Placement :=
  p.map fun kv =>
    (kv.1,
      if kv.1 = "MIKROBUS_CONNECTOR_1" then
        (dictGet "MIKROBUS_CONNECTOR_2" p).getD kv.2
      else if kv.1 = "MIKROBUS_CONNECTOR_2" then
        (dictGet "MIKROBUS_CONNECTOR_1" p).getD kv.2
      else kv.2)

/-- Spec-side predicate: the point q lies in the open interior of r. -/
def inOpenInterior (r : Rect) (q : ℚ × ℚ) : Prop :=
  r.x < q.1 ∧ q.1 < r.x + r.w ∧ r.y < q.2 ∧ q.2 < r.y + r.h

/-- Number of board edges touched by a rectangle. -/
def touchedEdgeCount (u : Rect) : ℕ :=
  (if u.y = 0 then 1 else 0) + (if u.y + u.h = 50 then 1 else 0) +
  (if u.x = 0 then 1 else 0) + (if u.x + u.w = 50 then 1 else 0)

/-- A concrete placement with the five required kinds that satisfies all
seven rules (used as evaluation input for several witnesses). -/
def samplePlacement : Placement :=
  [("USB_CONNECTOR", ⟨20, 0, 5, 5⟩),
   ("MICROCONTROLLER", ⟨24, 30, 5, 5⟩),
   ("CRYSTAL", ⟨29, 30, 5, 5⟩),
   ("MIKROBUS_CONNECTOR_1", ⟨0, 10, 15, 5⟩),
   ("MIKROBUS_CONNECTOR_2", ⟨35, 35, 15, 5⟩)]

/-- A placement holding the five required kinds plus a sixth, extra key,
arranged so that all seven geometric rules pass (the extra rectangle keeps
the six-component centre of mass exactly on (25, 25)). -/
def sixKeyPlacement : Placement :=
  [("USB_CONNECTOR", ⟨20, 0, 5, 5⟩),
   ("MICROCONTROLLER", ⟨24, 30, 5, 5⟩),
   ("CRYSTAL", ⟨29, 30, 5, 5⟩),
   ("MIKROBUS_CONNECTOR_1", ⟨0, 10, 15, 5⟩),
   ("MIKROBUS_CONNECTOR_2", ⟨35, 35, 15, 5⟩),
   ("EXTRA", ⟨17, 30, 5, 5⟩)]

/-- A placement with the five required kinds whose USB connector touches no
board edge. -/
def interiorUsbPlacement : Placement :=
  [("USB_CONNECTOR", ⟨20, 20, 5, 5⟩),
   ("MICROCONTROLLER", ⟨24, 30, 5, 5⟩),
   ("CRYSTAL", ⟨29, 30, 5, 5⟩),
   ("MIKROBUS_CONNECTOR_1", ⟨0, 10, 15, 5⟩),
   ("MIKROBUS_CONNECTOR_2", ⟨35, 35, 15, 5⟩)]

/-- Inner draws whose candidate (under `failOuter`) never validates:
the microcontroller lands out of bounds and the USB overlaps MB1. -/
def failDraw : InnerDraw := ⟨0, 0, 0, 0⟩

/-- Outer draws producing only invalid candidates for the (v, top)
configuration. -/
def failOuter : OuterDraw := ⟨0, 0, 0, fun _ => failDraw⟩

/-- One in-budget clock reading carrying the failing draws. -/
def failTicks : List Tick := [(0, failOuter)]

/-- Inner draws that send the internal components to a valid spot. -/
def solDraw : InnerDraw := ⟨1 / 2, -7 / 2, 5, 0⟩

/-- Outer draws that, for the (v, top) configuration, yield a fully valid
placement on the first inner attempt. -/
def solOuter : OuterDraw := ⟨10, 35, 20, fun _ => solDraw⟩

/-- One in-budget clock reading carrying the successful draws. -/
def solTicks : List Tick := [(0, solOuter)]

/-- The internal placement found by the run driven by `solTicks`. -/
def solPlacement : IPlacement :=
  ⟨⟨0, 10, 90⟩, ⟨35, 35, 90⟩, ⟨20, 0, 0⟩, ⟨24, 30, 0⟩, ⟨29, 30, 0⟩⟩

end PCB

namespace PCB

/- Helper lemmas. -/

theorem dictGet_swapMB_aux (p : Placement) (k : String) :
    ∀ q : Placement,
      dictGet k (q.map fun kv =>
        (kv.1,
          if kv.1 = "MIKROBUS_CONNECTOR_1" then
            (dictGet "MIKROBUS_CONNECTOR_2" p).getD kv.2
          else if kv.1 = "MIKROBUS_CONNECTOR_2" then
            (dictGet "MIKROBUS_CONNECTOR_1" p).getD kv.2
          else kv.2)) =
      (dictGet k q).map fun v =>
        if k = "MIKROBUS_CONNECTOR_1" then
          (dictGet "MIKROBUS_CONNECTOR_2" p).getD v
        else if k = "MIKROBUS_CONNECTOR_2" then
          (dictGet "MIKROBUS_CONNECTOR_1" p).getD v
        else v
  | [] => rfl
  | (k', v) :: rest => by
    by_cases hk : k' = k
    · subst hk
      simp [dictGet]
    · simp [dictGet, hk, dictGet_swapMB_aux p k rest]

theorem dictGet_swapMB (p : Placement) (k : String) :
    dictGet k (swapMB p) =
      (dictGet k p).map fun v =>
        if k = "MIKROBUS_CONNECTOR_1" then
          (dictGet "MIKROBUS_CONNECTOR_2" p).getD v
        else if k = "MIKROBUS_CONNECTOR_2" then
          (dictGet "MIKROBUS_CONNECTOR_1" p).getD v
        else v := by
  rw [swapMB]
  exact dictGet_swapMB_aux p k p

theorem parallelRule_comm (a b : Rect) : parallelRule a b = parallelRule b a := by
  simp only [parallelRule, decide_eq_decide]
  constructor <;> rintro ⟨hw, hd⟩ <;> exact ⟨hw.symm, by tauto⟩

theorem requiredPresent_lookup {p : Placement} (h : requiredPresent p = true)
    (k : String) (hk : k ∈ requiredKeys) : ∃ c, dictGet k p = some c := by
  simp only [requiredPresent, List.all_eq_true] at h
  have := h k hk
  cases hg : dictGet k p with
  | none => rw [hg] at this; simp at this
  | some c => exact ⟨c, rfl⟩

/- Claim theorems. -/

/-- C7: for every position of the three edge components, the target centre
derived by the search, ((125 − Σx)/2, (125 − Σy)/2), is such that if both
internal components' centres hit it exactly, the unweighted average of the
five centres is exactly (25, 25). -/
theorem claim7_target_center_balances (mb1 mb2 usb : IPos) :
    ((get_center_from_pos "MIKROBUS_CONNECTOR_1" mb1).1 +
     (get_center_from_pos "MIKROBUS_CONNECTOR_2" mb2).1 +
     (get_center_from_pos "USB_CONNECTOR" usb).1 +
     (targetCenter mb1 mb2 usb).1 + (targetCenter mb1 mb2 usb).1) / 5 = 25 ∧
    ((get_center_from_pos "MIKROBUS_CONNECTOR_1" mb1).2 +
     (get_center_from_pos "MIKROBUS_CONNECTOR_2" mb2).2 +
     (get_center_from_pos "USB_CONNECTOR" usb).2 +
     (targetCenter mb1 mb2 usb).2 + (targetCenter mb1 mb2 usb).2) / 5 = 25 := by
  constructor <;> · simp only [targetCenter]; ring

/-- C8: for every placement containing the five required kinds, exchanging
the rectangles bound to the two MIKROBUS connectors leaves the
parallel-placement rule's result unchanged. -/
theorem claim8_parallel_swap_invariant (p : Placement)
    (h : requiredPresent p = true) :
    parallelCheck (swapMB p) = parallelCheck p := by
  obtain ⟨a, ha⟩ := requiredPresent_lookup h "MIKROBUS_CONNECTOR_1" (by simp [requiredKeys])
  obtain ⟨b, hb⟩ := requiredPresent_lookup h "MIKROBUS_CONNECTOR_2" (by simp [requiredKeys])
  have h1 : dictGet "MIKROBUS_CONNECTOR_1" (swapMB p) = some b := by
    rw [dictGet_swapMB, ha]
    simp [hb]
  have h2 : dictGet "MIKROBUS_CONNECTOR_2" (swapMB p) = some a := by
    rw [dictGet_swapMB, hb]
    simp [ha]
  rw [parallelCheck, parallelCheck, h1, h2, ha, hb]
  exact parallelRule_comm b a

/-- C8 witness: the swap invariance applied to a concrete placement. -/
theorem claim8_witness :
    requiredPresent samplePlacement = true ∧
    parallelCheck (swapMB samplePlacement) = parallelCheck samplePlacement :=
  ⟨by simp [requiredPresent, requiredKeys, samplePlacement, dictGet],
   claim8_parallel_swap_invariant samplePlacement
     (by simp [requiredPresent, requiredKeys, samplePlacement, dictGet])⟩

/-- C2 counterexample: a placement that does NOT contain exactly the five
required kinds (it has a sixth, extra key) on which validate_placement does
not fail with the missing-component diagnostic: it evaluates the geometric
rules and returns true. -/
theorem claim2_counterexample :
    ¬ hasExactlyRequired sixKeyPlacement ∧
    validate_placement sixKeyPlacement = true := by
  constructor
  · intro h
    have := h.2 ("EXTRA", ⟨17, 30, 5, 5⟩) (by simp [sixKeyPlacement])
    simp [requiredKeys] at this
  · simp [validate_placement, requiredPresent, requiredKeys, dictGet,
      boundaryCheck, noOverlapCheck, overlapFound, allPairs, overlapPair,
      edgeCheck, edgeNames, onEdge, parallelCheck, parallelRule,
      proximityCheck, balanceCheck, keepoutCheck, keepoutZone, zoneCrossed,
      segsIntersect, ccw, get_center, distSq, BOARD_DIMS, PROXIMITY_RADIUS,
      CENTER_OF_MASS_RADIUS, KEEPOUT_ZONE_DIMS, sixKeyPlacement]
    norm_num

/-- C2 (amended): for every placement missing at least one of the five
required kinds, validate_placement fails immediately (returns false from
the missing-component guard, before any geometric rule contributes). -/
theorem claim2_missing_component_fails (p : Placement)
    (h : requiredPresent p = false) : validate_placement p = false := by
  simp [validate_placement, h]

/-- C2 witness: the amended theorem applied to the empty placement. -/
theorem claim2_witness :
    requiredPresent [] = false ∧ validate_placement [] = false :=
  ⟨rfl, claim2_missing_component_fails [] rfl⟩

/-- C3: for every placement containing the five required kinds, the overall
result of validate_placement equals the conjunction of the seven
independently evaluated rule results. -/
theorem claim3_validate_is_and_of_rules (p : Placement)
    (h : requiredPresent p = true) :
    validate_placement p =
      (boundaryCheck p && noOverlapCheck p && edgeCheck p && parallelCheck p &&
       proximityCheck p && balanceCheck p && keepoutCheck p) := by
  simp [validate_placement, h, Bool.and_assoc]

/-- C3 witness: the rule decomposition applied to a concrete placement. -/
theorem claim3_witness :
    requiredPresent samplePlacement = true ∧
    validate_placement samplePlacement =
      (boundaryCheck samplePlacement && noOverlapCheck samplePlacement &&
       edgeCheck samplePlacement && parallelCheck samplePlacement &&
       proximityCheck samplePlacement && balanceCheck samplePlacement &&
       keepoutCheck samplePlacement) :=
  ⟨by simp [requiredPresent, requiredKeys, samplePlacement, dictGet],
   claim3_validate_is_and_of_rules samplePlacement
     (by simp [requiredPresent, requiredKeys, samplePlacement, dictGet])⟩

/-- C4: for rectangles of positive width and height, the pairwise test of
the no-overlap rule holds if and only if the open interiors of the two
rectangles share a point; zero-area contact (shared edge or corner) is not
an overlap. -/
theorem claim4_overlap_iff_open_interiors (a b : Rect)
    (haw : 0 < a.w) (hah : 0 < a.h) (hbw : 0 < b.w) (hbh : 0 < b.h) :
    overlapPair a b = true ↔ ∃ q : ℚ × ℚ, inOpenInterior a q ∧ inOpenInterior b q := by
  have hiff : overlapPair a b = true ↔
      (b.x < a.x + a.w ∧ a.x < b.x + b.w ∧ b.y < a.y + a.h ∧ a.y < b.y + b.h) := by
    simp only [overlapPair, Bool.not_eq_true', Bool.or_eq_false_iff,
      decide_eq_false_iff_not, not_le, ge_iff_le]
    tauto
  rw [hiff]
  constructor
  · rintro ⟨h1, h2, h3, h4⟩
    have hx : max a.x b.x < min (a.x + a.w) (b.x + b.w) :=
      max_lt (lt_min (by linarith) (by linarith)) (lt_min (by linarith) (by linarith))
    have hy : max a.y b.y < min (a.y + a.h) (b.y + b.h) :=
      max_lt (lt_min (by linarith) (by linarith)) (lt_min (by linarith) (by linarith))
    have ha1 : a.x ≤ max a.x b.x := le_max_left _ _
    have hb1 : b.x ≤ max a.x b.x := le_max_right _ _
    have ha2 : min (a.x + a.w) (b.x + b.w) ≤ a.x + a.w := min_le_left _ _
    have hb2 : min (a.x + a.w) (b.x + b.w) ≤ b.x + b.w := min_le_right _ _
    have ha3 : a.y ≤ max a.y b.y := le_max_left _ _
    have hb3 : b.y ≤ max a.y b.y := le_max_right _ _
    have ha4 : min (a.y + a.h) (b.y + b.h) ≤ a.y + a.h := min_le_left _ _
    have hb4 : min (a.y + a.h) (b.y + b.h) ≤ b.y + b.h := min_le_right _ _
    exact ⟨((max a.x b.x + min (a.x + a.w) (b.x + b.w)) / 2,
            (max a.y b.y + min (a.y + a.h) (b.y + b.h)) / 2),
      ⟨by linarith, by linarith, by linarith, by linarith⟩,
      ⟨by linarith, by linarith, by linarith, by linarith⟩⟩
  · rintro ⟨⟨qx, qy⟩, ⟨a1, a2, a3, a4⟩, ⟨b1, b2, b3, b4⟩⟩
    exact ⟨by linarith, by linarith, by linarith, by linarith⟩

/-- C4 witness: the characterisation applied to two concrete rectangle
pairs would need two theorems; this witness instantiates the positive-size
hypotheses on one concrete pair with positive-area intersection. -/
theorem claim4_witness :
    (0 : ℚ) < 5 ∧
    (overlapPair ⟨0, 0, 5, 5⟩ ⟨4, 4, 5, 5⟩ = true ↔
      ∃ q : ℚ × ℚ, inOpenInterior ⟨0, 0, 5, 5⟩ q ∧ inOpenInterior ⟨4, 4, 5, 5⟩ q) :=
  ⟨by norm_num,
   claim4_overlap_iff_open_interiors ⟨0, 0, 5, 5⟩ ⟨4, 4, 5, 5⟩
     (by norm_num) (by norm_num) (by norm_num) (by norm_num)⟩

/-- C5: when the USB connector touches more than one board edge, the
keep-out zone follows the fixed branch priority (y = 0, then y + h = 50,
then x = 0, else the right edge), and the zone produced by the selected
branch is a 10-wide, 20-deep rectangle centred on the USB centre along the
touched edge and extending inward from it. -/
theorem claim5_keepout_priority (u : Rect) (h2 : 2 ≤ touchedEdgeCount u) :
    (u.y = 0 →
      (keepoutZone u).y = 0 ∧ (keepoutZone u).w = 10 ∧ (keepoutZone u).h = 20 ∧
      (keepoutZone u).x + (keepoutZone u).w / 2 = (get_center u).1) ∧
    (u.y ≠ 0 → u.y + u.h = 50 →
      (keepoutZone u).y + (keepoutZone u).h = 50 ∧
      (keepoutZone u).w = 10 ∧ (keepoutZone u).h = 20 ∧
      (keepoutZone u).x + (keepoutZone u).w / 2 = (get_center u).1) ∧
    (u.y ≠ 0 → u.y + u.h ≠ 50 → u.x = 0 →
      (keepoutZone u).x = 0 ∧ (keepoutZone u).w = 20 ∧ (keepoutZone u).h = 10 ∧
      (keepoutZone u).y + (keepoutZone u).h / 2 = (get_center u).2) ∧
    (u.y ≠ 0 → u.y + u.h ≠ 50 → u.x ≠ 0 → False) := by
  refine ⟨?_, ?_, ?_, ?_⟩
  · intro hy
    simp [keepoutZone, KEEPOUT_ZONE_DIMS, get_center, hy]
  · intro hy hb
    simp [keepoutZone, KEEPOUT_ZONE_DIMS, get_center, hy, hb]
  · intro hy hb hx
    simp [keepoutZone, KEEPOUT_ZONE_DIMS, get_center, hy, hb, hx]
  · intro hy hb hx
    simp only [touchedEdgeCount, if_neg hy, if_neg hb, if_neg hx] at h2
    split at h2 <;> omega

/-- C5 witness: the priority order applied to a USB connector placed
exactly at the board corner (0, 0), which touches two edges. -/
theorem claim5_witness :
    2 ≤ touchedEdgeCount ⟨0, 0, 5, 5⟩ ∧
    ((0 : ℚ) = 0 →
      (keepoutZone ⟨0, 0, 5, 5⟩).y = 0 ∧ (keepoutZone ⟨0, 0, 5, 5⟩).w = 10 ∧
      (keepoutZone ⟨0, 0, 5, 5⟩).h = 20 ∧
      (keepoutZone ⟨0, 0, 5, 5⟩).x + (keepoutZone ⟨0, 0, 5, 5⟩).w / 2 =
        (get_center ⟨0, 0, 5, 5⟩).1) :=
  ⟨by norm_num [touchedEdgeCount],
   (claim5_keepout_priority ⟨0, 0, 5, 5⟩ (by norm_num [touchedEdgeCount])).1⟩

/-- C10: a placement whose USB connector touches no board edge is not
rejected: validate_placement still evaluates all seven rules, and the
keep-out rule uses the fall-through zone anchored on the right board edge
(x from 30 to 50, 10 tall, vertically centred on the USB centre). -/
theorem claim10_interior_usb_right_zone (p : Placement) (u : Rect)
    (h : requiredPresent p = true)
    (hu : dictGet "USB_CONNECTOR" p = some u)
    (h1 : u.y ≠ 0) (h2 : u.y + u.h ≠ 50) (h3 : u.x ≠ 0) (h4 : u.x + u.w ≠ 50) :
    (keepoutZone u).x = 30 ∧ (keepoutZone u).x + (keepoutZone u).w = 50 ∧
    (keepoutZone u).h = 10 ∧
    (keepoutZone u).y + (keepoutZone u).h / 2 = (get_center u).2 ∧
    validate_placement p =
      (boundaryCheck p && noOverlapCheck p && edgeCheck p && parallelCheck p &&
       proximityCheck p && balanceCheck p && keepoutCheck p) ∧
    ∀ cr mc : Rect, dictGet "CRYSTAL" p = some cr →
      dictGet "MICROCONTROLLER" p = some mc →
      keepoutCheck p =
        !(zoneCrossed ⟨30, (get_center u).2 - 5, 20, 10⟩
          (get_center cr) (get_center mc)) := by
  have hz : keepoutZone u = ⟨30, (get_center u).2 - 5, 20, 10⟩ := by
    simp [keepoutZone, KEEPOUT_ZONE_DIMS, h1, h2, h3]
    norm_num
  refine ⟨by rw [hz], by rw [hz]; norm_num, by rw [hz], by rw [hz]; ring, ?_, ?_⟩
  · simp [validate_placement, h, Bool.and_assoc]
  · intro cr mc hcr hmc
    rw [keepoutCheck, hu, hcr, hmc]
    show (!(zoneCrossed (keepoutZone u) (get_center cr) (get_center mc))) = _
    rw [hz]

/-- C10 witness: the fall-through zone applied to a concrete placement
whose USB connector sits strictly inside the board. -/
theorem claim10_witness :
    requiredPresent interiorUsbPlacement = true ∧
    ((keepoutZone ⟨20, 20, 5, 5⟩).x = 30 ∧
     (keepoutZone ⟨20, 20, 5, 5⟩).x + (keepoutZone ⟨20, 20, 5, 5⟩).w = 50 ∧
     (keepoutZone ⟨20, 20, 5, 5⟩).h = 10 ∧
     (keepoutZone ⟨20, 20, 5, 5⟩).y + (keepoutZone ⟨20, 20, 5, 5⟩).h / 2 =
       (get_center ⟨20, 20, 5, 5⟩).2 ∧
     validate_placement interiorUsbPlacement =
       (boundaryCheck interiorUsbPlacement && noOverlapCheck interiorUsbPlacement &&
        edgeCheck interiorUsbPlacement && parallelCheck interiorUsbPlacement &&
        proximityCheck interiorUsbPlacement && balanceCheck interiorUsbPlacement &&
        keepoutCheck interiorUsbPlacement) ∧
     ∀ cr mc : Rect, dictGet "CRYSTAL" interiorUsbPlacement = some cr →
       dictGet "MICROCONTROLLER" interiorUsbPlacement = some mc →
       keepoutCheck interiorUsbPlacement =
         !(zoneCrossed ⟨30, (get_center ⟨20, 20, 5, 5⟩).2 - 5, 20, 10⟩
           (get_center cr) (get_center mc))) :=
  ⟨by simp [requiredPresent, requiredKeys, interiorUsbPlacement, dictGet],
   claim10_interior_usb_right_zone interiorUsbPlacement ⟨20, 20, 5, 5⟩
     (by simp [requiredPresent, requiredKeys, interiorUsbPlacement, dictGet])
     (by simp [interiorUsbPlacement, dictGet])
     (by norm_num) (by norm_num) (by norm_num) (by norm_num)⟩

theorem innerLoop_sound (mb1 mb2 usb : IPos) (t : ℚ × ℚ) (ds : ℕ → InnerDraw) :
    ∀ fuel i sol v, innerLoop mb1 mb2 usb t ds i fuel = (some sol, v) →
      validate_placement (convert_to_util_format sol) = true := by
  intro fuel
  induction fuel with
  | zero => intro i sol v h; simp [innerLoop] at h
  | succ n ih =>
    intro i sol v h
    simp only [innerLoop] at h
    split at h
    next hv =>
      injection h with h1 h2
      injection h1 with h1
      rw [← h1]
      exact hv
    next hv =>
      rcases hr : innerLoop mb1 mb2 usb t ds (i + 1) n with ⟨r, m⟩
      rw [hr] at h
      simp only at h
      injection h with h1 h2
      rw [h1] at hr
      exact ih (i + 1) sol m hr

theorem whileLoop_sound (t0 : ℚ) (cfg : Config) :
    ∀ ticks sol rem k v, whileLoop t0 cfg ticks = (some sol, rem, k, v) →
      validate_placement (convert_to_util_format sol) = true := by
  intro ticks
  induction ticks with
  | nil => intro sol rem k v h; simp [whileLoop] at h
  | cons td rest ih =>
    rcases td with ⟨t, d⟩
    intro sol rem k v h
    simp only [whileLoop] at h
    split at h
    next hpass =>
      rcases hr : innerLoop (placeMB cfg.1 d.rA d.rB).1 (placeMB cfg.1 d.rA d.rB).2
          (placeUSB cfg.2 d.rU)
          (targetCenter (placeMB cfg.1 d.rA d.rB).1 (placeMB cfg.1 d.rA d.rB).2
            (placeUSB cfg.2 d.rU)) d.inner 0 100 with ⟨r, vv⟩
      rw [hr] at h
      cases r with
      | some s =>
        simp only at h
        injection h with h1 h2
        injection h1 with h1
        rw [h1] at hr
        exact innerLoop_sound _ _ _ _ _ 100 0 sol vv hr
      | none =>
        rcases hw : whileLoop t0 cfg rest with ⟨r2, rem2, k2, v2⟩
        rw [hw] at h
        simp only at h
        injection h with h1 h2
        rw [h1] at hw
        exact ih sol rem2 k2 v2 hw
    next hfail =>
      simp only [Prod.mk.injEq] at h
      exact absurd h.1 (by simp)

/-- C1: for every start time, shuffle outcome, clock-reading sequence and
random-draw sequence, if find_placement returns a non-None internal
placement, then converting it with _convert_to_util_format and passing it
to validate_placement yields true. -/
theorem claim1_search_returns_valid (t0 : ℚ) (cfgs : List Config)
    (ticks : List Tick) (sol : IPlacement)
    (h : (find_placement t0 cfgs ticks).1 = some sol) :
    validate_placement (convert_to_util_format sol) = true := by
  revert h
  induction cfgs generalizing ticks with
  | nil => intro h; simp [find_placement] at h
  | cons c cs ih =>
    intro h
    simp only [find_placement] at h
    rcases hw : whileLoop t0 c ticks with ⟨r, rem, k, v⟩
    rw [hw] at h
    cases r with
    | some s =>
      simp only at h
      injection h with h1
      rw [h1] at hw
      exact whileLoop_sound t0 c ticks sol rem k v hw
    | none =>
      simp only at h
      exact ih rem h

theorem innerLoop_first_success (mb1 mb2 usb : IPos) (t : ℚ × ℚ)
    (ds : ℕ → InnerDraw) (i fuel : ℕ)
    (h : validate_placement
      (convert_to_util_format (mkCandidate mb1 mb2 usb t (ds i))) = true) :
    innerLoop mb1 mb2 usb t ds i (fuel + 1) =
      (some (mkCandidate mb1 mb2 usb t (ds i)), 1) := by
  simp only [innerLoop]
  rw [if_pos h]

/-- C1 witness: the soundness theorem applied to a concrete run of
find_placement that succeeds on its first attempt. -/
theorem claim1_witness :
    validate_placement (convert_to_util_format solPlacement) = true := by
  have hcv : convert_to_util_format solPlacement =
      [("MIKROBUS_CONNECTOR_1", ⟨0, 10, 15, 5⟩),
       ("MIKROBUS_CONNECTOR_2", ⟨35, 35, 15, 5⟩),
       ("USB_CONNECTOR", ⟨20, 0, 5, 5⟩),
       ("MICROCONTROLLER", ⟨24, 30, 5, 5⟩),
       ("CRYSTAL", ⟨29, 30, 5, 5⟩)] := by
    simp [convert_to_util_format, solPlacement, specSize]
  have hvl : validate_placement
      [("MIKROBUS_CONNECTOR_1", (⟨0, 10, 15, 5⟩ : Rect)),
       ("MIKROBUS_CONNECTOR_2", ⟨35, 35, 15, 5⟩),
       ("USB_CONNECTOR", ⟨20, 0, 5, 5⟩),
       ("MICROCONTROLLER", ⟨24, 30, 5, 5⟩),
       ("CRYSTAL", ⟨29, 30, 5, 5⟩)] = true := by
    simp [validate_placement, requiredPresent, requiredKeys, dictGet,
      boundaryCheck, noOverlapCheck, overlapFound, allPairs, overlapPair,
      edgeCheck, edgeNames, onEdge, parallelCheck, parallelRule,
      proximityCheck, balanceCheck, keepoutCheck, keepoutZone, zoneCrossed,
      segsIntersect, ccw, get_center, distSq, BOARD_DIMS, PROXIMITY_RADIUS,
      CENTER_OF_MASS_RADIUS, KEEPOUT_ZONE_DIMS]
    norm_num
  have hv : validate_placement (convert_to_util_format solPlacement) = true := by
    rw [hcv]
    exact hvl
  have htc : targetCenter ⟨0, 10, 90⟩ ⟨35, 35, 90⟩ ⟨20, 0, 0⟩ =
      (105 / 4, 145 / 4) := by
    simp [targetCenter, get_center_from_pos, specSize]
    norm_num
  have hc : mkCandidate ⟨0, 10, 90⟩ ⟨35, 35, 90⟩ ⟨20, 0, 0⟩
      ((105 : ℚ) / 4, (145 : ℚ) / 4) solDraw = solPlacement := by
    simp [mkCandidate, get_center_from_pos, specSize, solDraw, solPlacement,
      ratTrunc]
    norm_num
  have hi : innerLoop ⟨0, 10, 90⟩ ⟨35, 35, 90⟩ ⟨20, 0, 0⟩
      (targetCenter ⟨0, 10, 90⟩ ⟨35, 35, 90⟩ ⟨20, 0, 0⟩)
      (fun _ => solDraw) 0 100 = (some solPlacement, 1) := by
    rw [htc, show (100 : ℕ) = 99 + 1 from rfl,
      innerLoop_first_success _ _ _ _ _ _ _ (by rw [hc]; exact hv)]
    rw [hc]
  have hw : whileLoop 0 (MBOrient.v, UsbEdge.top) solTicks =
      (some solPlacement, [], 1, 1) := by
    simp only [solTicks, whileLoop, solOuter, placeMB, placeUSB]
    rw [if_pos (by norm_num [VALIDATION_TIME_LIMIT])]
    norm_num
    rw [hi]
    rfl
  have h : (find_placement 0 edge_configs solTicks).1 = some solPlacement := by
    simp only [find_placement, edge_configs]
    rw [hw]
  exact claim1_search_returns_valid 0 edge_configs solTicks solPlacement h

theorem whileLoop_attempts (t0 : ℚ) (cfg : Config) (t : ℚ) (d : OuterDraw)
    (rest : List Tick) (r : Option IPlacement) (rem : List Tick) (k v : ℕ)
    (hw : whileLoop t0 cfg ((t, d) :: rest) = (r, rem, k, v))
    (hlt : t - t0 < VALIDATION_TIME_LIMIT - 1 / 5) : 1 ≤ k := by
  simp only [whileLoop] at hw
  rw [if_pos hlt] at hw
  rcases hr : innerLoop (placeMB cfg.1 d.rA d.rB).1 (placeMB cfg.1 d.rA d.rB).2
      (placeUSB cfg.2 d.rU)
      (targetCenter (placeMB cfg.1 d.rA d.rB).1 (placeMB cfg.1 d.rA d.rB).2
        (placeUSB cfg.2 d.rU)) d.inner 0 100 with ⟨ro, vo⟩
  rw [hr] at hw
  cases ro with
  | some s =>
    simp only [Prod.mk.injEq] at hw
    omega
  | none =>
    rcases hw2 : whileLoop t0 cfg rest with ⟨r2, rem2, k2, v2⟩
    rw [hw2] at hw
    simp only [Prod.mk.injEq] at hw
    omega

/-- C6: in every run of find_placement that ends without success, every
configuration of the shuffled list was entered (the trace covers the whole
list in order), and every configuration that was reached while an in-budget
clock reading was still available performed at least one full attempt
(candidate generation plus validation). -/
theorem claim6_every_config_attempted (t0 : ℚ) (cfgs : List Config)
    (ticks : List Tick) (tr : List (Config × List Tick × ℕ)) (vs : ℕ)
    (hrun : find_placement t0 cfgs ticks = (none, tr, vs)) :
    tr.map Prod.fst = cfgs ∧
    ∀ e ∈ tr,
      (∃ t d rest, e.2.1 = (t, d) :: rest ∧
        t - t0 < VALIDATION_TIME_LIMIT - 1 / 5) →
      1 ≤ e.2.2 := by
  revert hrun
  induction cfgs generalizing ticks tr vs with
  | nil =>
    intro hrun
    simp only [find_placement] at hrun
    injection hrun with h1 h2
    injection h2 with h2 h3
    subst h2
    simp
  | cons c cs ih =>
    intro hrun
    simp only [find_placement] at hrun
    rcases hw : whileLoop t0 c ticks with ⟨r, rem, k, v⟩
    rw [hw] at hrun
    cases r with
    | some s =>
      simp only [Prod.mk.injEq] at hrun
      exact absurd hrun.1 (by simp)
    | none =>
      simp only at hrun
      rcases hf : find_placement t0 cs rem with ⟨r2, tr2, vs2⟩
      rw [hf] at hrun
      simp only [Prod.mk.injEq] at hrun
      obtain ⟨hr2, htr, -⟩ := hrun
      subst htr
      obtain ⟨ihm, ihe⟩ := ih rem tr2 vs2 (by rw [hf, hr2])
      refine ⟨by simp [ihm], ?_⟩
      intro e he hex
      rcases List.mem_cons.mp he with rfl | hmem
      · obtain ⟨t, d, rest, hts, hlt⟩ := hex
        subst hts
        exact whileLoop_attempts t0 c t d rest none rem k v hw hlt
      · exact ihe e hmem hex

theorem innerLoop_const_fail (mb1 mb2 usb : IPos) (t : ℚ × ℚ) (d : InnerDraw)
    (hf : validate_placement
      (convert_to_util_format (mkCandidate mb1 mb2 usb t d)) = false) :
    ∀ fuel i, innerLoop mb1 mb2 usb t (fun _ => d) i fuel = (none, fuel) := by
  intro fuel
  induction fuel with
  | zero => intro i; rfl
  | succ n ih =>
    intro i
    simp only [innerLoop]
    rw [if_neg (by simp [hf])]
    rw [ih (i + 1)]

theorem failRun_eval :
    find_placement 0 edge_configs failTicks =
      (none,
       [((MBOrient.v, UsbEdge.top), failTicks, 1),
        ((MBOrient.v, UsbEdge.bottom), ([] : List Tick), 0),
        ((MBOrient.h, UsbEdge.left), ([] : List Tick), 0),
        ((MBOrient.h, UsbEdge.right), ([] : List Tick), 0)],
       100) := by
  have hf : validate_placement
      (convert_to_util_format (mkCandidate ⟨0, 0, 90⟩ ⟨35, 0, 90⟩ ⟨0, 0, 0⟩
        (targetCenter ⟨0, 0, 90⟩ ⟨35, 0, 90⟩ ⟨0, 0, 0⟩) failDraw)) = false := by
    have hcand : mkCandidate ⟨0, 0, 90⟩ ⟨35, 0, 90⟩ ⟨0, 0, 0⟩
        (targetCenter ⟨0, 0, 90⟩ ⟨35, 0, 90⟩ ⟨0, 0, 0⟩) failDraw =
        ⟨⟨0, 0, 90⟩, ⟨35, 0, 90⟩, ⟨0, 0, 0⟩, ⟨33, 56, 0⟩, ⟨33, 56, 0⟩⟩ := by
      simp [mkCandidate, targetCenter, get_center_from_pos, specSize,
        failDraw, ratTrunc]
      norm_num
    rw [hcand]
    simp [validate_placement, requiredPresent, requiredKeys, dictGet,
      boundaryCheck, noOverlapCheck, overlapFound, allPairs, overlapPair,
      edgeCheck, edgeNames, onEdge, parallelCheck, parallelRule,
      proximityCheck, balanceCheck, keepoutCheck, keepoutZone, zoneCrossed,
      segsIntersect, ccw, get_center, distSq, BOARD_DIMS, PROXIMITY_RADIUS,
      CENTER_OF_MASS_RADIUS, KEEPOUT_ZONE_DIMS, convert_to_util_format,
      specSize]
  have hi := innerLoop_const_fail _ _ _ _ _ hf 100 0
  have hw1 : whileLoop 0 (MBOrient.v, UsbEdge.top) failTicks =
      (none, [], 1, 100) := by
    simp only [failTicks, whileLoop, failOuter, placeMB, placeUSB]
    rw [if_pos (by norm_num [VALIDATION_TIME_LIMIT])]
    norm_num
    rw [hi]
  simp only [edge_configs, find_placement]
  rw [hw1]
  simp [find_placement, whileLoop]

/-- C6 witness: the attempted-configurations theorem applied to a concrete
failing run with one in-budget clock reading. -/
theorem claim6_witness :
    find_placement 0 edge_configs failTicks =
      (none,
       [((MBOrient.v, UsbEdge.top), failTicks, 1),
        ((MBOrient.v, UsbEdge.bottom), ([] : List Tick), 0),
        ((MBOrient.h, UsbEdge.left), ([] : List Tick), 0),
        ((MBOrient.h, UsbEdge.right), ([] : List Tick), 0)], 100) ∧
    (([((MBOrient.v, UsbEdge.top), failTicks, 1),
       ((MBOrient.v, UsbEdge.bottom), ([] : List Tick), 0),
       ((MBOrient.h, UsbEdge.left), ([] : List Tick), 0),
       ((MBOrient.h, UsbEdge.right), ([] : List Tick), 0)].map Prod.fst
        = edge_configs) ∧
     ∀ e ∈ [((MBOrient.v, UsbEdge.top), failTicks, 1),
            ((MBOrient.v, UsbEdge.bottom), ([] : List Tick), 0),
            ((MBOrient.h, UsbEdge.left), ([] : List Tick), 0),
            ((MBOrient.h, UsbEdge.right), ([] : List Tick), 0)],
       (∃ t d rest, e.2.1 = (t, d) :: rest ∧
         t - 0 < VALIDATION_TIME_LIMIT - 1 / 5) →
       1 ≤ e.2.2) :=
  ⟨failRun_eval,
   claim6_every_config_attempted 0 edge_configs failTicks _ 100 failRun_eval⟩

theorem innerLoop_count_le (mb1 mb2 usb : IPos) (t : ℚ × ℚ)
    (ds : ℕ → InnerDraw) :
    ∀ fuel i, (innerLoop mb1 mb2 usb t ds i fuel).2 ≤ fuel := by
  intro fuel
  induction fuel with
  | zero => intro i; simp [innerLoop]
  | succ n ih =>
    intro i
    simp only [innerLoop]
    split
    · simp
    · rcases hr : innerLoop mb1 mb2 usb t ds (i + 1) n with ⟨r, m⟩
      have hm := ih (i + 1)
      rw [hr] at hm
      have hm' : m ≤ n := hm
      show m + 1 ≤ n + 1
      omega

theorem whileLoop_count (t0 : ℚ) (cfg : Config) :
    ∀ ticks, (whileLoop t0 cfg ticks).2.2.2 ≤ 100 * (whileLoop t0 cfg ticks).2.2.1 := by
  intro ticks
  induction ticks with
  | nil => simp [whileLoop]
  | cons td rest ih =>
    rcases td with ⟨t, d⟩
    simp only [whileLoop]
    split
    · rcases hr : innerLoop (placeMB cfg.1 d.rA d.rB).1 (placeMB cfg.1 d.rA d.rB).2
          (placeUSB cfg.2 d.rU)
          (targetCenter (placeMB cfg.1 d.rA d.rB).1 (placeMB cfg.1 d.rA d.rB).2
            (placeUSB cfg.2 d.rU)) d.inner 0 100 with ⟨ro, vo⟩
      have hvo := innerLoop_count_le (placeMB cfg.1 d.rA d.rB).1
        (placeMB cfg.1 d.rA d.rB).2 (placeUSB cfg.2 d.rU)
        (targetCenter (placeMB cfg.1 d.rA d.rB).1 (placeMB cfg.1 d.rA d.rB).2
          (placeUSB cfg.2 d.rU)) d.inner 100 0
      rw [hr] at hvo
      have hvo' : vo ≤ 100 := hvo
      cases ro with
      | some s =>
        show vo ≤ 100 * 1
        omega
      | none =>
        rcases hw2 : whileLoop t0 cfg rest with ⟨r2, rem2, k2, v2⟩
        rw [hw2] at ih
        have ih' : v2 ≤ 100 * k2 := ih
        show v2 + vo ≤ 100 * (k2 + 1)
        omega
    · simp

theorem find_placement_count (t0 : ℚ) :
    ∀ (cfgs : List Config) (ticks : List Tick) (r : Option IPlacement)
      (tr : List (Config × List Tick × ℕ)) (vs : ℕ),
      find_placement t0 cfgs ticks = (r, tr, vs) →
      vs ≤ 100 * (tr.map fun e => e.2.2).sum := by
  intro cfgs
  induction cfgs with
  | nil =>
    intro ticks r tr vs h
    simp only [find_placement, Prod.mk.injEq] at h
    obtain ⟨-, htr, hvs⟩ := h
    subst htr
    subst hvs
    simp
  | cons c cs ih =>
    intro ticks r tr vs h
    simp only [find_placement] at h
    rcases hw : whileLoop t0 c ticks with ⟨ro, rem, k, v⟩
    rw [hw] at h
    have h1 := whileLoop_count t0 c ticks
    rw [hw] at h1
    have h1' : v ≤ 100 * k := h1
    cases ro with
    | some s =>
      simp only [Prod.mk.injEq] at h
      obtain ⟨-, htr, hvs⟩ := h
      subst htr
      subst hvs
      simp only [List.map_cons, List.map_nil, List.sum_cons, List.sum_nil]
      omega
    | none =>
      simp only at h
      rcases hf : find_placement t0 cs rem with ⟨r2, tr2, vs2⟩
      rw [hf] at h
      simp only [Prod.mk.injEq] at h
      obtain ⟨-, htr, hvs⟩ := h
      subst htr
      subst hvs
      have h2 := ih rem r2 tr2 vs2 hf
      simp only [List.map_cons, List.sum_cons]
      have hdist : 100 * (k + (tr2.map fun e => e.2.2).sum) =
          100 * k + 100 * (tr2.map fun e => e.2.2).sum := by ring
      omega

/-- C9 (amended): across any run of find_placement, the total number of
validation calls is at most 100 times the number of passing clock checks:
the clock is consulted once per outer attempt, so after the final
in-budget clock reading at most one more outer attempt — up to 100
candidate validations, not just one — runs before the function returns. -/
theorem claim9_validations_bounded (t0 : ℚ) (cfgs : List Config)
    (ticks : List Tick) :
    (find_placement t0 cfgs ticks).2.2 ≤
      100 * ((find_placement t0 cfgs ticks).2.1.map fun e => e.2.2).sum := by
  rcases h : find_placement t0 cfgs ticks with ⟨r, tr, vs⟩
  exact find_placement_count t0 cfgs ticks r tr vs h

/-- C9 counterexample: a concrete run with exactly one passing clock check
during which 100 validation calls are performed before find_placement
returns: the overshoot past the deadline is a full 100-validation outer
attempt, not a single attempt-and-validation. -/
theorem claim9_counterexample :
    (find_placement 0 edge_configs failTicks).1 = none ∧
    ((find_placement 0 edge_configs failTicks).2.1.map fun e => e.2.2).sum = 1 ∧
    (find_placement 0 edge_configs failTicks).2.2 = 100 := by
  rw [failRun_eval]
  norm_num

end PCB
